import Mathlib

/-!
Shallow embedding of the GC barrier-set core:
`src/hotspot/share/gc/shared/barrierSet.inline.hpp` (the checked/unchecked
oop array copy `BarrierSet::AccessBarrier::oop_arraycopy_in_heap`) and
`src/hotspot/share/gc/shared/barrierSet.cpp` (`set_barrier_set`, the two
exception-throwing helpers, and `gc_barrier_stubs_init`).

Heap references are modelled as `Option Obj` (`none` is the null oop); the
heap is a flat address space `Nat → Option Obj`, matching the raw-pointer
arithmetic of the C++ code.  Klass descriptors are opaque ids (`Nat`)
queried through a read-only `TypeSys` collaborator exposing the subtype
predicate and the external name, exactly the two queries the source makes.
Exceptions become an `Option VmErr` result channel; the committed
destination indices are additionally collected in a trace list so that the
processing order is visible in the model.
-/

/-- A non-null heap object: its runtime klass id and an identity tag
(so two objects of the same class stay distinguishable). -/
structure Obj where
  klass : Nat
  oid : Nat
deriving DecidableEq, Repr

/-- A heap slot holds a reference: `none` is the null reference
(`CompressedOops::is_null`). -/
abbrev Elem := Option Obj

/-- The flat heap: raw addresses to reference slots. -/
abbrev Heap := Nat → Elem

/-- Read-only type-system collaborator: `Klass::is_subtype_of` and
`Klass::external_name`, keyed by klass id. -/
structure TypeSys where
  is_subtype_of : Nat → Nat → Bool
  external_name : Nat → String

/-- `oopDesc::is_instanceof_or_null(obj, klass)`: true when the reference
is null or its runtime klass is a subtype of `k`. -/
def is_instanceof_or_null (ts : TypeSys) (e : Elem) (k : Nat) : Bool :=
  match e with
  | none => true
  | some o => ts.is_subtype_of o.klass k

/-- The two recoverable array-copy error conditions thrown by
`barrierSet.cpp`, each carrying its constructed message. -/
inductive VmErr where
  | nullPointer (msg : String)
  | arrayStore (msg : String)
deriving DecidableEq, Repr

/-- `BarrierSet::throw_array_null_pointer_store_exception`: builds
"arraycopy: can not copy null values into %s[]" with the destination
array's element klass name and throws `java_lang_NullPointerException`. -/
def throw_array_null_pointer_store_exception (ts : TypeSys)
    (dstElemKlass : Nat) : VmErr :=
  let bound := dstElemKlass
  .nullPointer ("arraycopy: can not copy null values into "
    ++ ts.external_name bound ++ "[]")

/-- `BarrierSet::throw_array_store_exception`: selects the whole-array or
single-element message by `bound->is_subtype_of(stype)` and throws
`java_lang_ArrayStoreException`. -/
def throw_array_store_exception (ts : TypeSys)
    (srcElemKlass dstElemKlass : Nat) : VmErr :=
  let bound := dstElemKlass
  let stype := srcElemKlass
  if ¬ ts.is_subtype_of bound stype then
    .arrayStore ("arraycopy: type mismatch: can not copy "
      ++ ts.external_name stype ++ "[] into " ++ ts.external_name bound ++ "[]")
  else
    .arrayStore ("arraycopy: element type mismatch: can not cast one of the elements of "
      ++ ts.external_name stype ++ "[] to the type of the destination array, "
      ++ ts.external_name bound)

/-- `Raw::oop_arraycopy`: the strategy's raw bulk copy of `n` slots from
addresses `[s, s+n)` to `[d, d+n)`; every destination slot receives the
corresponding pre-call source value (conjoint-copy semantics). -/
def raw_oop_arraycopy (h : Heap) (s d n : Nat) : Heap :=
  fun a => if d ≤ a ∧ a < d + n then h (s + (a - d)) else h a

/-- The per-element loop of `oop_arraycopy_in_heap` (the checked path),
processing indices `i, i+1, ...` with `rem` elements remaining.  Each step
reads `elem = *src`, applies the `ARRAYCOPY_NOTNULL` check then the
`ARRAYCOPY_CHECKCAST` check (each throwing and returning on failure), and
otherwise stores `*dst = elem` and advances.  Returns the final heap, the
thrown error if any, and the list of committed destination indices in
processing order. -/
def checked_loop (ts : TypeSys) (cc nn : Bool) (srcK dstK : Nat)
    (s d : Nat) : Heap → Nat → Nat → Heap × Option VmErr × List Nat
  | h, _, 0 => (h, none, [])
  | h, i, rem + 1 =>
    let elem := h (s + i)
    if nn ∧ elem = none then
      (h, some (throw_array_null_pointer_store_exception ts dstK), [])
    else if cc ∧ ¬ is_instanceof_or_null ts elem dstK then
      (h, some (throw_array_store_exception ts srcK dstK), [])
    else
      let h2 : Heap := fun a => if a = d + i then elem else h a
      let r := checked_loop ts cc nn srcK dstK s d h2 (i + 1) rem
      (r.1, r.2.1, i :: r.2.2)

/-- `BarrierSet::AccessBarrier::oop_arraycopy_in_heap`: decorators
`cc = ARRAYCOPY_CHECKCAST`, `nn = ARRAYCOPY_NOTNULL`; `srcK`/`dstK` are the
element klasses of the source/destination array objects (`dstK` is the
`dst_klass` resolved once before the loop; both feed the exception
messages); `s`/`d` are the resolved absolute start addresses; `n` is the
element count.  If neither decorator is set, the covariant fast path does
one flat `Raw::oop_arraycopy`; otherwise each element is checked. -/
def oop_arraycopy_in_heap (ts : TypeSys) (cc nn : Bool) (srcK dstK : Nat)
    (h : Heap) (s d n : Nat) : Heap × Option VmErr × List Nat :=
  if ¬ cc ∧ ¬ nn then
    (raw_oop_arraycopy h s d n, none, [])
  else
    checked_loop ts cc nn srcK dstK s d h 0 n

/-- The outcome of the per-element check of the loop body: the error the
body throws at a given element, or `none` when the element is committed.
Factors the two guard clauses of `checked_loop` for use in statements. -/
def elemCheck (ts : TypeSys) (cc nn : Bool) (srcK dstK : Nat)
    (e : Elem) : Option VmErr :=
  if nn ∧ e = none then
    some (throw_array_null_pointer_store_exception ts dstK)
  else if cc ∧ ¬ is_instanceof_or_null ts e dstK then
    some (throw_array_store_exception ts srcK dstK)
  else
    none

/-- A barrier-set strategy instance, identified by its id. -/
structure BarrierSetObj where
  bsid : Nat
deriving DecidableEq, Repr

/-- The calling thread as the asserts in `set_barrier_set` see it:
`Thread::current()->is_Java_thread()` and
`JavaThread::current()->on_thread_list()`. -/
structure ThreadObj where
  tid : Nat
  is_Java_thread : Bool
  on_thread_list : Bool
deriving DecidableEq, Repr

/-- The fatal contract violations (failed `assert`s) on the startup path;
these halt the process and are distinct from the recoverable `VmErr`
channel. -/
inductive Fatal where
  | alreadyInitialized
  | notJavaThread
  | mainThreadOnList
deriving DecidableEq, Repr

/-- Observable calls into the installed strategy: the thread-attach
notification `on_thread_create` and the stub emission
`barrier_set_assembler()->barrier_stubs_init()`, each tagged with the
strategy id (and thread id for the former). -/
inductive BsEvent where
  | on_thread_create (bsid tid : Nat)
  | barrier_stubs_init (bsid : Nat)
deriving DecidableEq, Repr

/-- Process state for the startup protocol: the `BarrierSet::_barrier_set`
singleton slot, the current thread, and the log of calls made into the
installed strategy. -/
structure VMState where
  barrier_set : Option BarrierSetObj
  current : ThreadObj
  events : List BsEvent
deriving DecidableEq, Repr

/-- `BarrierSet::set_barrier_set`: asserts the slot is still empty, stores
the instance, asserts the current (main) thread is a JavaThread not yet on
the thread list, and synchronously notifies the installed instance of the
current thread via `on_thread_create`.  A failed assert is a fatal halt. -/
def set_barrier_set (st : VMState) (bs : BarrierSetObj) : Except Fatal VMState :=
  if st.barrier_set.isSome then
    .error .alreadyInitialized
  else
    let st1 : VMState := { st with barrier_set := some bs }
    if ¬ st1.current.is_Java_thread then
      .error .notJavaThread
    else if st1.current.on_thread_list then
      .error .mainThreadOnList
    else
      .ok { st1 with
            events := st1.events ++ [.on_thread_create bs.bsid st1.current.tid] }

/-- `gc_barrier_stubs_init`: fetches the singleton via
`BarrierSet::barrier_set()` and, unless the build is the ZERO execution
mode (which has no stub-generator capability, `#ifndef ZERO`), asks the
strategy's assembler to emit its barrier stubs once.  Called after the
singleton exists; with no singleton installed there is no assembler to
call and the state is left as is. -/
def gc_barrier_stubs_init (zero : Bool) (st : VMState) : VMState :=
  match st.barrier_set with
  | some bs =>
    if zero then st
    else { st with events := st.events ++ [.barrier_stubs_init bs.bsid] }
  | none => st

/-- The message carried by a thrown error. -/
def VmErr.msg : VmErr → String
  | .nullPointer m => m
  | .arrayStore m => m

/-- `m` contains `sub` as a contiguous substring. -/
def containsStr (m sub : String) : Prop :=
  ∃ p q, m = p ++ sub ++ q

/-- A small concrete type system for exercising the theorems: klass 0 is
the root, every klass is a subtype of itself and of 0; klasses 1 and 2 are
unrelated to each other. -/
def ts0 : TypeSys where
  is_subtype_of := fun a b => a == b || b == 0
  external_name := fun k =>
    if k == 0 then "java.lang.Object"
    else if k == 1 then "java.lang.String"
    else "B"

/-- A concrete heap for the cast-check scenarios: addresses 0 and 2 hold
klass-1 objects, address 1 holds a klass-2 object, all else is null. -/
def hp0 : Heap := fun a =>
  if a = 0 then some ⟨1, 0⟩
  else if a = 1 then some ⟨2, 1⟩
  else if a = 2 then some ⟨1, 2⟩
  else none

/-- A concrete heap for the null-check scenarios: addresses 0 and 2 hold
klass-1 objects, address 1 is null, all else is null. -/
def hp1 : Heap := fun a =>
  if a = 0 then some ⟨1, 0⟩
  else if a = 2 then some ⟨1, 2⟩
  else none

/-- A concrete pre-initialization process state: empty singleton slot, the
bootstrap thread current (a JavaThread not yet on the thread list), no
strategy calls yet. -/
def st0 : VMState where
  barrier_set := none
  current := { tid := 7, is_Java_thread := true, on_thread_list := false }
  events := []

/-! ### Helper lemmas about the checked loop -/

lemma checked_loop_zero (ts : TypeSys) (cc nn : Bool) (srcK dstK s d : Nat)
    (h : Heap) (i : Nat) :
    checked_loop ts cc nn srcK dstK s d h i 0 = (h, none, []) := rfl

lemma checked_loop_body_fail (ts : TypeSys) (cc nn : Bool) (srcK dstK s d : Nat)
    (h : Heap) (i rem : Nat) (e : VmErr)
    (hf : elemCheck ts cc nn srcK dstK (h (s + i)) = some e) :
    checked_loop ts cc nn srcK dstK s d h i (rem + 1) = (h, some e, []) := by
  unfold elemCheck at hf
  unfold checked_loop
  split_ifs at hf ⊢ with h1 h2 <;> simp_all

lemma checked_loop_body_ok (ts : TypeSys) (cc nn : Bool) (srcK dstK s d : Nat)
    (h : Heap) (i rem : Nat)
    (hok : elemCheck ts cc nn srcK dstK (h (s + i)) = none) :
    checked_loop ts cc nn srcK dstK s d h i (rem + 1) =
      (let r := checked_loop ts cc nn srcK dstK s d
          (fun a => if a = d + i then h (s + i) else h a) (i + 1) rem
       (r.1, r.2.1, i :: r.2.2)) := by
  unfold elemCheck at hok
  conv_lhs => rw [checked_loop]
  split_ifs at hok ⊢ with h1 h2
  all_goals simp_all

/-- Specification of the checked loop when every remaining element passes
its per-element check: no error, all `rem` slots committed in increasing
index order, and no address outside the written window touched.  The
disjointness hypothesis says the remaining source reads do not alias the
destination writes. -/
lemma checked_loop_ok_spec (ts : TypeSys) (cc nn : Bool) (srcK dstK s d : Nat) :
    ∀ (rem i : Nat) (h : Heap),
    (∀ t u, t < rem → u < rem → s + i + t ≠ d + i + u) →
    (∀ t, t < rem → elemCheck ts cc nn srcK dstK (h (s + i + t)) = none) →
    (checked_loop ts cc nn srcK dstK s d h i rem).2.1 = none ∧
    (checked_loop ts cc nn srcK dstK s d h i rem).2.2 = List.range' i rem ∧
    (∀ t, t < rem →
      (checked_loop ts cc nn srcK dstK s d h i rem).1 (d + i + t) = h (s + i + t)) ∧
    (∀ a, a < d + i ∨ d + i + rem ≤ a →
      (checked_loop ts cc nn srcK dstK s d h i rem).1 a = h a) := by
  intro rem
  induction rem with
  | zero =>
    intro i h _ _
    simp [checked_loop_zero]
  | succ rem ih =>
    intro i h hd hok
    have hok0 : elemCheck ts cc nn srcK dstK (h (s + i)) = none := by
      have := hok 0 (Nat.succ_pos rem)
      simpa using this
    rw [checked_loop_body_ok ts cc nn srcK dstK s d h i rem hok0]
    set h2 : Heap := fun a => if a = d + i then h (s + i) else h a with hh2
    have h2ne : ∀ a, a ≠ d + i → h2 a = h a := by
      intro a ha
      simp [hh2, ha]
    have h2eq : h2 (d + i) = h (s + i) := by simp [hh2]
    have hd' : ∀ t u, t < rem → u < rem → s + (i + 1) + t ≠ d + (i + 1) + u := by
      intro t u ht hu
      have := hd (t + 1) (u + 1) (by omega) (by omega)
      omega
    have hsrc_ne : ∀ t, t < rem → s + (i + 1) + t ≠ d + i := by
      intro t ht
      have := hd (t + 1) 0 (by omega) (by omega)
      omega
    have hok' : ∀ t, t < rem →
        elemCheck ts cc nn srcK dstK (h2 (s + (i + 1) + t)) = none := by
      intro t ht
      rw [h2ne _ (hsrc_ne t ht)]
      have := hok (t + 1) (by omega)
      have harg : s + i + (t + 1) = s + (i + 1) + t := by omega
      rw [harg] at this
      exact this
    obtain ⟨ihe, iht, ihw, ihf⟩ := ih (i + 1) h2 hd' hok'
    refine ⟨ihe, ?_, ?_, ?_⟩
    · simp [iht, List.range'_succ]
    · intro t ht
      match t with
      | 0 =>
        have : d + i + 0 = d + i := by omega
        rw [this, ihf (d + i) (Or.inl (by omega)), h2eq]
        congr 1
      | t + 1 =>
        have hw := ihw t (by omega)
        rw [h2ne _ (hsrc_ne t (by omega))] at hw
        have ha : d + (i + 1) + t = d + i + (t + 1) := by omega
        have hb : s + (i + 1) + t = s + i + (t + 1) := by omega
        rw [ha, hb] at hw
        exact hw
    · intro a ha
      have ha' : a < d + (i + 1) ∨ d + (i + 1) + rem ≤ a := by omega
      rw [ihf a ha', h2ne a (by omega)]

/-- Specification of the checked loop when the first failing element sits
`k` positions ahead: the error of that element is thrown, exactly the `k`
leading slots are committed in increasing index order, and every address
outside the `k`-slot written window (the untouched suffix included) keeps
its old value. -/
lemma checked_loop_fail_spec (ts : TypeSys) (cc nn : Bool) (srcK dstK s d : Nat) :
    ∀ (k i rem : Nat) (h : Heap) (e : VmErr),
    k < rem →
    (∀ t u, t < rem → u < rem → s + i + t ≠ d + i + u) →
    (∀ t, t < k → elemCheck ts cc nn srcK dstK (h (s + i + t)) = none) →
    elemCheck ts cc nn srcK dstK (h (s + i + k)) = some e →
    (checked_loop ts cc nn srcK dstK s d h i rem).2.1 = some e ∧
    (checked_loop ts cc nn srcK dstK s d h i rem).2.2 = List.range' i k ∧
    (∀ t, t < k →
      (checked_loop ts cc nn srcK dstK s d h i rem).1 (d + i + t) = h (s + i + t)) ∧
    (∀ a, a < d + i ∨ d + i + k ≤ a →
      (checked_loop ts cc nn srcK dstK s d h i rem).1 a = h a) := by
  intro k
  induction k with
  | zero =>
    intro i rem h e hk hd _ hf
    match rem, hk with
    | rem + 1, _ =>
      have hf0 : elemCheck ts cc nn srcK dstK (h (s + i)) = some e := by
        simpa using hf
      rw [checked_loop_body_fail ts cc nn srcK dstK s d h i rem e hf0]
      simp
  | succ k ih =>
    intro i rem h e hk hd hok hf
    match rem, hk with
    | rem + 1, _ =>
      have hok0 : elemCheck ts cc nn srcK dstK (h (s + i)) = none := by
        have := hok 0 (Nat.succ_pos k)
        simpa using this
      rw [checked_loop_body_ok ts cc nn srcK dstK s d h i rem hok0]
      set h2 : Heap := fun a => if a = d + i then h (s + i) else h a with hh2
      have h2ne : ∀ a, a ≠ d + i → h2 a = h a := by
        intro a ha
        simp [hh2, ha]
      have h2eq : h2 (d + i) = h (s + i) := by simp [hh2]
      have hd' : ∀ t u, t < rem → u < rem → s + (i + 1) + t ≠ d + (i + 1) + u := by
        intro t u ht hu
        have := hd (t + 1) (u + 1) (by omega) (by omega)
        omega
      have hsrc_ne : ∀ t, t < rem → s + (i + 1) + t ≠ d + i := by
        intro t ht
        have := hd (t + 1) 0 (by omega) (by omega)
        omega
      have hk' : k < rem := by omega
      have hok' : ∀ t, t < k →
          elemCheck ts cc nn srcK dstK (h2 (s + (i + 1) + t)) = none := by
        intro t ht
        rw [h2ne _ (hsrc_ne t (by omega))]
        have := hok (t + 1) (by omega)
        have harg : s + i + (t + 1) = s + (i + 1) + t := by omega
        rw [harg] at this
        exact this
      have hf' : elemCheck ts cc nn srcK dstK (h2 (s + (i + 1) + k)) = some e := by
        rw [h2ne _ (hsrc_ne k hk')]
        have harg : s + i + (k + 1) = s + (i + 1) + k := by omega
        rw [harg] at hf
        exact hf
      obtain ⟨ihe, iht, ihw, ihf⟩ := ih (i + 1) rem h2 e hk' hd' hok' hf'
      refine ⟨ihe, ?_, ?_, ?_⟩
      · simp [iht, List.range'_succ]
      · intro t ht
        match t with
        | 0 =>
          have : d + i + 0 = d + i := by omega
          rw [this, ihf (d + i) (Or.inl (by omega)), h2eq]
          congr 1
        | t + 1 =>
          have hw := ihw t (by omega)
          rw [h2ne _ (hsrc_ne t (by omega))] at hw
          have ha : d + (i + 1) + t = d + i + (t + 1) := by omega
          have hb : s + (i + 1) + t = s + i + (t + 1) := by omega
          rw [ha, hb] at hw
          exact hw
      · intro a ha
        have ha' : a < d + (i + 1) ∨ d + (i + 1) + k ≤ a := by omega
        rw [ihf a ha', h2ne a (by omega)]

/-- With only `ARRAYCOPY_CHECKCAST` set, the per-element check reduces to
the instance-of-or-null test. -/
lemma elemCheck_checkcast (ts : TypeSys) (srcK dstK : Nat) (e : Elem) :
    elemCheck ts true false srcK dstK e =
      (if is_instanceof_or_null ts e dstK then none
       else some (throw_array_store_exception ts srcK dstK)) := by
  unfold elemCheck
  split_ifs <;> simp_all

/-- With only `ARRAYCOPY_NOTNULL` set, the per-element check reduces to
the null test. -/
lemma elemCheck_notnull (ts : TypeSys) (srcK dstK : Nat) (e : Elem) :
    elemCheck ts false true srcK dstK e =
      (if e = none then some (throw_array_null_pointer_store_exception ts dstK)
       else none) := by
  unfold elemCheck
  split_ifs <;> simp_all

/-- Unconditional frame property of the checked loop: no address outside
the destination window `[d+i, d+i+rem)` is ever written, whatever the
elements are and wherever the loop stops. -/
lemma checked_loop_frame (ts : TypeSys) (cc nn : Bool) (srcK dstK s d : Nat) :
    ∀ (rem i : Nat) (h : Heap) (a : Nat), a < d + i ∨ d + i + rem ≤ a →
      (checked_loop ts cc nn srcK dstK s d h i rem).1 a = h a := by
  intro rem
  induction rem with
  | zero =>
    intro i h a _
    rw [checked_loop_zero]
  | succ rem ih =>
    intro i h a ha
    rcases he : elemCheck ts cc nn srcK dstK (h (s + i)) with _ | e
    · rw [checked_loop_body_ok ts cc nn srcK dstK s d h i rem he]
      have := ih (i + 1) (fun b => if b = d + i then h (s + i) else h b) a (by omega)
      simp only [this]
      rw [if_neg (by omega)]
    · rw [checked_loop_body_fail ts cc nn srcK dstK s d h i rem e he]

/-- On the checked path (at least one decorator set), if every element
passes its check, the copy succeeds: no error, all `n` destination slots
get the corresponding source values in increasing index order, nothing
else is touched. -/
lemma arraycopy_checked_ok (ts : TypeSys) (cc nn : Bool) (srcK dstK : Nat)
    (h : Heap) (s d n : Nat)
    (hset : cc = true ∨ nn = true)
    (hd : ∀ t u, t < n → u < n → s + t ≠ d + u)
    (hok : ∀ t, t < n → elemCheck ts cc nn srcK dstK (h (s + t)) = none) :
    (oop_arraycopy_in_heap ts cc nn srcK dstK h s d n).2.1 = none ∧
    (oop_arraycopy_in_heap ts cc nn srcK dstK h s d n).2.2 = List.range n ∧
    (∀ t, t < n →
      (oop_arraycopy_in_heap ts cc nn srcK dstK h s d n).1 (d + t) = h (s + t)) ∧
    (∀ a, a < d ∨ d + n ≤ a →
      (oop_arraycopy_in_heap ts cc nn srcK dstK h s d n).1 a = h a) := by
  have hcond : ¬(¬ cc = true ∧ ¬ nn = true) := by
    rcases hset with h1 | h1 <;> simp [h1]
  have hu : oop_arraycopy_in_heap ts cc nn srcK dstK h s d n
      = checked_loop ts cc nn srcK dstK s d h 0 n := by
    unfold oop_arraycopy_in_heap
    rw [if_neg hcond]
  obtain ⟨he, htr, hw, hf⟩ := checked_loop_ok_spec ts cc nn srcK dstK s d n 0 h
    (by intro t u ht hu2; simpa using hd t u ht hu2)
    (by intro t ht; simpa using hok t ht)
  rw [hu]
  refine ⟨he, ?_, ?_, ?_⟩
  · rw [htr, ← List.range_eq_range']
  · intro t ht
    simpa using hw t ht
  · intro a ha
    exact hf a (by omega)

/-- On the checked path (at least one decorator set), if the first failing
element sits at index `k`, the copy stops there: the failing element's
error is thrown, exactly the destination slots below `k` receive their
source values in increasing index order, and every other address — the
untouched destination suffix included — keeps its old value. -/
lemma arraycopy_checked_fail (ts : TypeSys) (cc nn : Bool) (srcK dstK : Nat)
    (h : Heap) (s d n k : Nat) (e : VmErr)
    (hset : cc = true ∨ nn = true)
    (hd : ∀ t u, t < n → u < n → s + t ≠ d + u)
    (hk : k < n)
    (hok : ∀ t, t < k → elemCheck ts cc nn srcK dstK (h (s + t)) = none)
    (hf : elemCheck ts cc nn srcK dstK (h (s + k)) = some e) :
    (oop_arraycopy_in_heap ts cc nn srcK dstK h s d n).2.1 = some e ∧
    (oop_arraycopy_in_heap ts cc nn srcK dstK h s d n).2.2 = List.range k ∧
    (∀ t, t < k →
      (oop_arraycopy_in_heap ts cc nn srcK dstK h s d n).1 (d + t) = h (s + t)) ∧
    (∀ a, a < d ∨ d + k ≤ a →
      (oop_arraycopy_in_heap ts cc nn srcK dstK h s d n).1 a = h a) := by
  have hcond : ¬(¬ cc = true ∧ ¬ nn = true) := by
    rcases hset with h1 | h1 <;> simp [h1]
  have hu : oop_arraycopy_in_heap ts cc nn srcK dstK h s d n
      = checked_loop ts cc nn srcK dstK s d h 0 n := by
    unfold oop_arraycopy_in_heap
    rw [if_neg hcond]
  obtain ⟨he, htr, hw, hff⟩ := checked_loop_fail_spec ts cc nn srcK dstK s d k 0 n h e hk
    (by intro t u ht hu2; simpa using hd t u ht hu2)
    (by intro t ht; simpa using hok t ht)
    (by simpa using hf)
  rw [hu]
  refine ⟨he, ?_, ?_, ?_⟩
  · rw [htr, ← List.range_eq_range']
  · intro t ht
    simpa using hw t ht
  · intro a ha
    exact hff a (by omega)

/-! ### Claim theorems -/

/-- C3: with neither the cast-check nor the nulls-forbidden decorator set,
for every length and every contents (nulls included) the copy is exactly
one flat `Raw::oop_arraycopy` bulk copy with no per-element checking:
every destination slot receives the corresponding source value and no
error is raised. -/
theorem unchecked_copy_is_raw_bulk (ts : TypeSys) (srcK dstK : Nat)
    (h : Heap) (s d n : Nat) :
    oop_arraycopy_in_heap ts false false srcK dstK h s d n =
      (raw_oop_arraycopy h s d n, none, []) ∧
    (∀ i, i < n →
      (oop_arraycopy_in_heap ts false false srcK dstK h s d n).1 (d + i)
        = h (s + i)) := by
  have hfast : oop_arraycopy_in_heap ts false false srcK dstK h s d n =
      (raw_oop_arraycopy h s d n, none, []) := by
    unfold oop_arraycopy_in_heap
    rw [if_pos (by simp)]
  refine ⟨hfast, ?_⟩
  intro i hi
  rw [hfast]
  show raw_oop_arraycopy h s d n (d + i) = h (s + i)
  unfold raw_oop_arraycopy
  rw [if_pos ⟨by omega, by omega⟩]
  congr 1
  omega

/-- Witness for `unchecked_copy_is_raw_bulk`: a length-3 copy of contents
containing a null, from address 0 to address 10. -/
theorem unchecked_copy_is_raw_bulk_witness :
    (oop_arraycopy_in_heap ts0 false false 0 1 hp1 0 10 3).2.1 = none ∧
    (oop_arraycopy_in_heap ts0 false false 0 1 hp1 0 10 3).1 11 = hp1 1 := by
  obtain ⟨heq, hw⟩ := unchecked_copy_is_raw_bulk ts0 0 1 hp1 0 10 3
  refine ⟨by rw [heq], ?_⟩
  have := hw 1 (by omega)
  simpa using this

/-- C6: for every decorator combination, a copy of length 0 leaves every
heap address unchanged, raises no error, and processes no index. -/
theorem copy_length_zero (ts : TypeSys) (cc nn : Bool) (srcK dstK : Nat)
    (h : Heap) (s d : Nat) :
    (∀ a, (oop_arraycopy_in_heap ts cc nn srcK dstK h s d 0).1 a = h a) ∧
    (oop_arraycopy_in_heap ts cc nn srcK dstK h s d 0).2.1 = none ∧
    (oop_arraycopy_in_heap ts cc nn srcK dstK h s d 0).2.2 = [] := by
  unfold oop_arraycopy_in_heap
  split_ifs with hc
  · refine ⟨?_, rfl, rfl⟩
    intro a
    show raw_oop_arraycopy h s d 0 a = h a
    unfold raw_oop_arraycopy
    rw [if_neg (by omega)]
  · rw [checked_loop_zero]
    exact ⟨fun a => rfl, rfl, rfl⟩

/-- C1: cast-check decorator set (nulls-forbidden clear).  If every source
element is assignable to the destination's declared element type, all `n`
elements are copied and no error is raised.  If the first incompatible
element is at index `k`, destination slots `[0,k)` hold the corresponding
source elements, destination slots `[k,n)` are unchanged, the TypeMismatch
(`ArrayStoreException`) error is raised, and the committed indices are
processed in strictly increasing order.  The disjointness hypothesis says
source and destination are distinct element ranges. -/
theorem checkcast_copy_spec (ts : TypeSys) (srcK dstK : Nat) (h : Heap)
    (s d n : Nat)
    (hd : ∀ t u, t < n → u < n → s + t ≠ d + u) :
    ((∀ i, i < n → is_instanceof_or_null ts (h (s + i)) dstK = true) →
      (oop_arraycopy_in_heap ts true false srcK dstK h s d n).2.1 = none ∧
      (∀ i, i < n →
        (oop_arraycopy_in_heap ts true false srcK dstK h s d n).1 (d + i)
          = h (s + i))) ∧
    (∀ k, k < n →
      is_instanceof_or_null ts (h (s + k)) dstK = false →
      (∀ i, i < k → is_instanceof_or_null ts (h (s + i)) dstK = true) →
      (oop_arraycopy_in_heap ts true false srcK dstK h s d n).2.1
          = some (throw_array_store_exception ts srcK dstK) ∧
      (∀ i, i < k →
        (oop_arraycopy_in_heap ts true false srcK dstK h s d n).1 (d + i)
          = h (s + i)) ∧
      (∀ a, d + k ≤ a → a < d + n →
        (oop_arraycopy_in_heap ts true false srcK dstK h s d n).1 a = h a) ∧
      (oop_arraycopy_in_heap ts true false srcK dstK h s d n).2.2
          = List.range k ∧
      List.Pairwise (· < ·)
        (oop_arraycopy_in_heap ts true false srcK dstK h s d n).2.2) := by
  constructor
  · intro hall
    obtain ⟨he, -, hw, -⟩ := arraycopy_checked_ok ts true false srcK dstK h s d n
      (Or.inl rfl) hd
      (by intro t ht; rw [elemCheck_checkcast, if_pos (hall t ht)])
    exact ⟨he, hw⟩
  · intro k hk hbad hgood
    obtain ⟨he, htr, hw, hf⟩ := arraycopy_checked_fail ts true false srcK dstK
      h s d n k (throw_array_store_exception ts srcK dstK) (Or.inl rfl) hd hk
      (by intro t ht; rw [elemCheck_checkcast, if_pos (hgood t ht)])
      (by rw [elemCheck_checkcast, if_neg (by simp [hbad])])
    refine ⟨he, hw, ?_, htr, ?_⟩
    · intro a ha1 ha2
      exact hf a (Or.inr ha1)
    · rw [htr]
      exact List.pairwise_lt_range k

/-- Witness for `checkcast_copy_spec`: source `[klass 1, klass 2, klass 1]`
at address 0 copied to address 10 with destination element type klass 1;
the first incompatible element is at index 1, so slot 10 is committed,
slot 11 keeps its old value, and exactly index 0 is in the trace. -/
theorem checkcast_copy_spec_witness :
    (oop_arraycopy_in_heap ts0 true false 0 1 hp0 0 10 3).2.1
        = some (throw_array_store_exception ts0 0 1) ∧
    (oop_arraycopy_in_heap ts0 true false 0 1 hp0 0 10 3).1 10 = hp0 0 ∧
    (oop_arraycopy_in_heap ts0 true false 0 1 hp0 0 10 3).1 11 = hp0 11 ∧
    (oop_arraycopy_in_heap ts0 true false 0 1 hp0 0 10 3).2.2
        = List.range 1 := by
  obtain ⟨-, hfail⟩ := checkcast_copy_spec ts0 0 1 hp0 0 10 3
    (by intro t u _ _; omega)
  obtain ⟨he, hw, hf, htr, -⟩ := hfail 1 (by decide) (by decide) (by decide)
  refine ⟨he, ?_, hf 11 (by omega) (by omega), htr⟩
  have := hw 0 (by omega)
  simpa using this

/-- C2: nulls-forbidden decorator set (cast-check clear).  If no source
element among the first `n` is null, the result is identical to the
unchecked raw bulk copy and no error is raised.  If the first null source
element is at index `k`, destination slots `[0,k)` hold the corresponding
source elements, destination slots `[k,n)` are unchanged, and the
NullNotPermitted (`NullPointerException`) error is raised with a message
containing the destination's declared element type name. -/
theorem notnull_copy_spec (ts : TypeSys) (srcK dstK : Nat) (h : Heap)
    (s d n : Nat)
    (hd : ∀ t u, t < n → u < n → s + t ≠ d + u) :
    ((∀ i, i < n → h (s + i) ≠ none) →
      (oop_arraycopy_in_heap ts false true srcK dstK h s d n).2.1 = none ∧
      (∀ a, (oop_arraycopy_in_heap ts false true srcK dstK h s d n).1 a
          = raw_oop_arraycopy h s d n a)) ∧
    (∀ k, k < n → h (s + k) = none →
      (∀ i, i < k → h (s + i) ≠ none) →
      (oop_arraycopy_in_heap ts false true srcK dstK h s d n).2.1
          = some (throw_array_null_pointer_store_exception ts dstK) ∧
      containsStr (throw_array_null_pointer_store_exception ts dstK).msg
        (ts.external_name dstK) ∧
      (∀ i, i < k →
        (oop_arraycopy_in_heap ts false true srcK dstK h s d n).1 (d + i)
          = h (s + i)) ∧
      (∀ a, d + k ≤ a → a < d + n →
        (oop_arraycopy_in_heap ts false true srcK dstK h s d n).1 a = h a)) := by
  constructor
  · intro hall
    obtain ⟨he, -, hw, hf⟩ := arraycopy_checked_ok ts false true srcK dstK h s d n
      (Or.inr rfl) hd
      (by intro t ht; rw [elemCheck_notnull, if_neg (hall t ht)])
    refine ⟨he, ?_⟩
    intro a
    by_cases hwin : d ≤ a ∧ a < d + n
    · have ht : a - d < n := by omega
      have hweq := hw (a - d) ht
      have ha : d + (a - d) = a := by omega
      rw [ha] at hweq
      rw [hweq]
      unfold raw_oop_arraycopy
      rw [if_pos hwin]
    · rw [hf a (by omega)]
      unfold raw_oop_arraycopy
      rw [if_neg hwin]
  · intro k hk hnull hgood
    obtain ⟨he, -, hw, hf⟩ := arraycopy_checked_fail ts false true srcK dstK
      h s d n k (throw_array_null_pointer_store_exception ts dstK)
      (Or.inr rfl) hd hk
      (by intro t ht; rw [elemCheck_notnull, if_neg (hgood t ht)])
      (by rw [elemCheck_notnull, if_pos hnull])
    refine ⟨he, ?_, hw, ?_⟩
    · exact ⟨"arraycopy: can not copy null values into ", "[]", rfl⟩
    · intro a ha1 ha2
      exact hf a (Or.inr ha1)

/-- Witness for `notnull_copy_spec`: source `[klass 1, null, klass 1]` at
address 0 copied to address 10 with destination element type klass 1; the
first null is at index 1. -/
theorem notnull_copy_spec_witness :
    (oop_arraycopy_in_heap ts0 false true 0 1 hp1 0 10 3).2.1
        = some (throw_array_null_pointer_store_exception ts0 1) ∧
    (oop_arraycopy_in_heap ts0 false true 0 1 hp1 0 10 3).1 10 = hp1 0 ∧
    (oop_arraycopy_in_heap ts0 false true 0 1 hp1 0 10 3).1 11 = hp1 11 := by
  obtain ⟨-, hfail⟩ := notnull_copy_spec ts0 0 1 hp1 0 10 3
    (by intro t u _ _; omega)
  obtain ⟨he, -, hw, hf⟩ := hfail 1 (by decide) (by decide) (by decide)
  refine ⟨he, ?_, hf 11 (by omega) (by omega)⟩
  have := hw 0 (by omega)
  simpa using this

/-- C5: with the cast-check decorator set and nulls-forbidden clear, a
null source element never raises TypeMismatch: the instance-of-or-null
test accepts null, so the per-element check passes and the loop stores the
element at its destination index and advances to the next index. -/
theorem checkcast_null_element_stored (ts : TypeSys) (srcK dstK : Nat)
    (h : Heap) (s d i rem : Nat) (hnull : h (s + i) = none) :
    is_instanceof_or_null ts (h (s + i)) dstK = true ∧
    elemCheck ts true false srcK dstK (h (s + i)) = none ∧
    checked_loop ts true false srcK dstK s d h i (rem + 1) =
      (let r := checked_loop ts true false srcK dstK s d
          (fun a => if a = d + i then h (s + i) else h a) (i + 1) rem
       (r.1, r.2.1, i :: r.2.2)) := by
  have hinst : is_instanceof_or_null ts (h (s + i)) dstK = true := by
    rw [hnull]
    rfl
  have hchk : elemCheck ts true false srcK dstK (h (s + i)) = none := by
    rw [elemCheck_checkcast, if_pos hinst]
  exact ⟨hinst, hchk,
    checked_loop_body_ok ts true false srcK dstK s d h i rem hchk⟩

/-- Witness for `checkcast_null_element_stored`: the null at source index 1
of `hp1` passes the cast check and is committed, and the whole length-3
checked copy with that null succeeds end to end. -/
theorem checkcast_null_element_stored_witness :
    is_instanceof_or_null ts0 (hp1 (0 + 1)) 1 = true ∧
    elemCheck ts0 true false 0 1 (hp1 (0 + 1)) = none ∧
    (oop_arraycopy_in_heap ts0 true false 0 1 hp1 0 10 3).2.1 = none := by
  obtain ⟨ha, hb, -⟩ :=
    checkcast_null_element_stored ts0 0 1 hp1 0 10 1 5 (by decide)
  exact ⟨ha, hb, by decide⟩

/-- C4: the TypeMismatch message shape is selected by the subtype test
`bound->is_subtype_of(stype)`: if the destination's declared element type
is not a subtype of the source array's declared element type, the
whole-array-mismatch message is produced, otherwise the single-element
message; each message contains the external names of both element types. -/
theorem store_exception_message_spec (ts : TypeSys) (srcK dstK : Nat) :
    (ts.is_subtype_of dstK srcK = false →
      throw_array_store_exception ts srcK dstK =
        .arrayStore ("arraycopy: type mismatch: can not copy "
          ++ ts.external_name srcK ++ "[] into "
          ++ ts.external_name dstK ++ "[]")) ∧
    (ts.is_subtype_of dstK srcK = true →
      throw_array_store_exception ts srcK dstK =
        .arrayStore ("arraycopy: element type mismatch: can not cast one of the elements of "
          ++ ts.external_name srcK ++ "[] to the type of the destination array, "
          ++ ts.external_name dstK)) ∧
    containsStr (throw_array_store_exception ts srcK dstK).msg
      (ts.external_name srcK) ∧
    containsStr (throw_array_store_exception ts srcK dstK).msg
      (ts.external_name dstK) := by
  unfold throw_array_store_exception
  dsimp only
  split_ifs with hsub
  · refine ⟨fun hc => by simp [hsub] at hc, fun _ => rfl, ?_, ?_⟩
    · refine ⟨"arraycopy: element type mismatch: can not cast one of the elements of ",
        "[] to the type of the destination array, " ++ ts.external_name dstK, ?_⟩
      show ("arraycopy: element type mismatch: can not cast one of the elements of "
          ++ ts.external_name srcK ++ "[] to the type of the destination array, "
          ++ ts.external_name dstK) = _
      simp [String.append_assoc]
    · refine ⟨"arraycopy: element type mismatch: can not cast one of the elements of "
        ++ ts.external_name srcK ++ "[] to the type of the destination array, ",
        "", ?_⟩
      rw [String.append_empty]
      rfl
  · refine ⟨fun _ => rfl, fun hc => absurd hc hsub, ?_, ?_⟩
    · refine ⟨"arraycopy: type mismatch: can not copy ",
        "[] into " ++ ts.external_name dstK ++ "[]", ?_⟩
      show ("arraycopy: type mismatch: can not copy "
          ++ ts.external_name srcK ++ "[] into "
          ++ ts.external_name dstK ++ "[]") = _
      simp [String.append_assoc]
    · exact ⟨"arraycopy: type mismatch: can not copy "
        ++ ts.external_name srcK ++ "[] into ", "[]", rfl⟩

/-- Witness for `store_exception_message_spec`: with source element type
klass 2 (unrelated to klass 1) the whole-array message is produced; with
source element type klass 0 (a supertype of klass 1) the single-element
message is produced. -/
theorem store_exception_message_spec_witness :
    throw_array_store_exception ts0 2 1 =
      .arrayStore ("arraycopy: type mismatch: can not copy "
        ++ ts0.external_name 2 ++ "[] into " ++ ts0.external_name 1 ++ "[]") ∧
    throw_array_store_exception ts0 0 1 =
      .arrayStore ("arraycopy: element type mismatch: can not cast one of the elements of "
        ++ ts0.external_name 0 ++ "[] to the type of the destination array, "
        ++ ts0.external_name 1) := by
  exact ⟨(store_exception_message_spec ts0 2 1).1 (by decide),
    (store_exception_message_spec ts0 0 1).2.1 (by decide)⟩

/-- C7: the first call to `set_barrier_set` under the startup
preconditions installs the singleton; any call finding a singleton already
installed takes the fatal contract-violation path (`assert`), never the
recoverable error channel; and every successful call starts from an empty
slot and installs exactly its argument, so the installed singleton is
never replaced or cleared. -/
theorem set_barrier_set_singleton (st : VMState) (bs : BarrierSetObj) :
    (st.barrier_set = none → st.current.is_Java_thread = true →
      st.current.on_thread_list = false →
      ∃ st', set_barrier_set st bs = .ok st' ∧ st'.barrier_set = some bs) ∧
    (∀ b, st.barrier_set = some b →
      set_barrier_set st bs = .error .alreadyInitialized) ∧
    (∀ st', set_barrier_set st bs = .ok st' →
      st.barrier_set = none ∧ st'.barrier_set = some bs) := by
  refine ⟨?_, ?_, ?_⟩
  · intro hnone hjava hlist
    refine ⟨{ st with
        barrier_set := some bs,
        events := st.events ++ [.on_thread_create bs.bsid st.current.tid] },
      ?_, rfl⟩
    unfold set_barrier_set
    rw [hnone]
    simp [hjava, hlist]
  · intro b hb
    unfold set_barrier_set
    rw [hb]
    rfl
  · intro st' hok
    unfold set_barrier_set at hok
    by_cases hb : st.barrier_set.isSome
    · rw [if_pos hb] at hok
      cases hok
    · rw [if_neg hb] at hok
      dsimp only at hok
      have hbn : st.barrier_set = none := by
        cases hst : st.barrier_set with
        | none => rfl
        | some b => rw [hst] at hb; simp at hb
      refine ⟨hbn, ?_⟩
      split_ifs at hok
      all_goals injection hok with hok
      subst hok
      rfl

/-- Witness for `set_barrier_set_singleton`: the first call from the
pristine startup state installs instance 3; a second call on the resulting
installed state hits the fatal already-initialized path. -/
theorem set_barrier_set_singleton_witness :
    (∃ st', set_barrier_set st0 ⟨3⟩ = .ok st' ∧ st'.barrier_set = some ⟨3⟩) ∧
    set_barrier_set { st0 with barrier_set := some ⟨3⟩ } ⟨4⟩
        = .error .alreadyInitialized := by
  exact ⟨(set_barrier_set_singleton st0 ⟨3⟩).1 rfl rfl rfl,
    (set_barrier_set_singleton { st0 with barrier_set := some ⟨3⟩ } ⟨4⟩).2.1 ⟨3⟩ rfl⟩

/-- C8: under the precondition that the singleton slot is empty and the
calling bootstrap thread is a JavaThread not yet on the thread list,
`set_barrier_set` installs the instance and synchronously appends exactly
one `on_thread_create` notification for that thread to the installed
instance. -/
theorem set_barrier_set_thread_attach (st : VMState) (bs : BarrierSetObj)
    (hnone : st.barrier_set = none)
    (hjava : st.current.is_Java_thread = true)
    (hlist : st.current.on_thread_list = false) :
    set_barrier_set st bs =
      .ok { st with
            barrier_set := some bs,
            events := st.events ++ [.on_thread_create bs.bsid st.current.tid] } := by
  unfold set_barrier_set
  rw [hnone]
  simp [hjava, hlist]

/-- Witness for `set_barrier_set_thread_attach`: installing instance 3
from the pristine startup state records exactly the attach notification of
the bootstrap thread (tid 7) on instance 3. -/
theorem set_barrier_set_thread_attach_witness :
    set_barrier_set st0 ⟨3⟩ =
      .ok { st0 with
            barrier_set := some ⟨3⟩,
            events := [.on_thread_create 3 7] } := by
  have hth := set_barrier_set_thread_attach st0 ⟨3⟩ rfl rfl rfl
  simpa using hth

/-- C9: `gc_barrier_stubs_init` invoked once the singleton exists: in the
ZERO execution mode (no stub-generator capability) it is a no-op on the
state; otherwise it asks the active strategy's assembler to emit its stubs
exactly once — the event log grows by exactly that one call — and changes
nothing else. -/
theorem gc_barrier_stubs_init_spec (zero : Bool) (st : VMState)
    (bs : BarrierSetObj) (hbs : st.barrier_set = some bs) :
    (zero = true → gc_barrier_stubs_init zero st = st) ∧
    (zero = false →
      (gc_barrier_stubs_init zero st).events
          = st.events ++ [.barrier_stubs_init bs.bsid] ∧
      (gc_barrier_stubs_init zero st).barrier_set = st.barrier_set ∧
      (gc_barrier_stubs_init zero st).current = st.current) := by
  constructor
  · intro hz
    subst hz
    simp [gc_barrier_stubs_init, hbs]
  · intro hz
    subst hz
    simp [gc_barrier_stubs_init, hbs]

/-- Witness for `gc_barrier_stubs_init_spec` on the installed state: the
ZERO mode leaves the state untouched; the non-ZERO mode logs exactly one
stub-emission call on instance 3. -/
theorem gc_barrier_stubs_init_spec_witness :
    gc_barrier_stubs_init true { st0 with barrier_set := some ⟨3⟩ }
        = { st0 with barrier_set := some ⟨3⟩ } ∧
    (gc_barrier_stubs_init false { st0 with barrier_set := some ⟨3⟩ }).events
        = [.barrier_stubs_init 3] := by
  have h1 := (gc_barrier_stubs_init_spec true
    { st0 with barrier_set := some ⟨3⟩ } ⟨3⟩ rfl).1 rfl
  have h2 := (gc_barrier_stubs_init_spec false
    { st0 with barrier_set := some ⟨3⟩ } ⟨3⟩ rfl).2 rfl
  exact ⟨h1, by simpa using h2.1⟩

/-- C10: frame property of the array copy.  For every decorator
combination, length and contents: no address outside the destination
window `[d, d+n)` is ever modified; when the source range is disjoint from
the destination range, every source slot keeps its pre-call value; and on
the checked path stopping at first failure index `k`, only destination
slots below `k` are modified. -/
theorem arraycopy_frame_spec (ts : TypeSys) (cc nn : Bool) (srcK dstK : Nat)
    (h : Heap) (s d n : Nat) :
    (∀ a, a < d ∨ d + n ≤ a →
      (oop_arraycopy_in_heap ts cc nn srcK dstK h s d n).1 a = h a) ∧
    ((∀ t u, t < n → u < n → s + t ≠ d + u) →
      ∀ j, j < n →
        (oop_arraycopy_in_heap ts cc nn srcK dstK h s d n).1 (s + j)
          = h (s + j)) ∧
    (∀ k e, k < n → (cc = true ∨ nn = true) →
      (∀ t u, t < n → u < n → s + t ≠ d + u) →
      (∀ t, t < k → elemCheck ts cc nn srcK dstK (h (s + t)) = none) →
      elemCheck ts cc nn srcK dstK (h (s + k)) = some e →
      ∀ a, a < d ∨ d + k ≤ a →
        (oop_arraycopy_in_heap ts cc nn srcK dstK h s d n).1 a = h a) := by
  have hframe : ∀ a, a < d ∨ d + n ≤ a →
      (oop_arraycopy_in_heap ts cc nn srcK dstK h s d n).1 a = h a := by
    intro a ha
    unfold oop_arraycopy_in_heap
    split_ifs with hc
    · show raw_oop_arraycopy h s d n a = h a
      unfold raw_oop_arraycopy
      rw [if_neg (by omega)]
    · exact checked_loop_frame ts cc nn srcK dstK s d n 0 h a (by omega)
  refine ⟨hframe, ?_, ?_⟩
  · intro hd j hj
    apply hframe
    by_contra hcon
    push_neg at hcon
    exact hd j (s + j - d) hj (by omega) (by omega)
  · intro k e hk hset hd hok hf a ha
    obtain ⟨-, -, -, hff⟩ := arraycopy_checked_fail ts cc nn srcK dstK
      h s d n k e hset hd hk hok hf
    exact hff a ha

/-- Witness for `arraycopy_frame_spec` at the cast-check failure scenario
of `hp0`: the slot below the destination window, the source slot 0, and
the destination slot of the failing index all keep their old values. -/
theorem arraycopy_frame_spec_witness :
    (oop_arraycopy_in_heap ts0 true false 0 1 hp0 0 10 3).1 9 = hp0 9 ∧
    (oop_arraycopy_in_heap ts0 true false 0 1 hp0 0 10 3).1 0 = hp0 0 ∧
    (oop_arraycopy_in_heap ts0 true false 0 1 hp0 0 10 3).1 11 = hp0 11 := by
  obtain ⟨hfr, hsrc, hfail⟩ := arraycopy_frame_spec ts0 true false 0 1 hp0 0 10 3
  refine ⟨hfr 9 (by omega), ?_, ?_⟩
  · have := hsrc (by intro t u _ _; omega) 0 (by omega)
    simpa using this
  · exact hfail 1 (throw_array_store_exception ts0 0 1) (by omega) (Or.inl rfl)
      (by intro t u _ _; omega) (by decide) (by decide) 11 (by omega)
